import Mathlib

/-!
Verification of the kaps container runtime / OCI image manager core.

This file shallowly embeds the Rust sources of the repository into Lean:
pure functions become Lean functions, stateful code becomes explicit state
passing, fallible code returns `Option`/`Except` (with `Option.none` at the
outermost level standing for a Rust panic), and external library calls
(registry client, gzip, tar, sha256, cgroup syscalls) are replaced by
explicit inputs describing their observable results.

Conventions:
* `String` models Rust `String`/`&str`; `List Char` is used where the code
  manipulates individual characters or raw file bytes.
* Rust `HashMap` is modelled by an association list with replace-on-insert
  semantics (`hmInsert`, `hmLookup`, `hmExtend`); lookup observes exactly
  the map semantics, the representation order is irrelevant to every
  statement proved below.
* `usize` is modelled by `Nat` reduced modulo `2 ^ 64` at the operations
  where the Rust code can overflow (atomic `fetch_add` wraps).
-/

namespace Kaps

/-- Word size of `usize` on the 64-bit targets kaps builds for; atomic
`fetch_add` on `AtomicUsize` wraps modulo this value. -/
def USIZE : Nat := 2 ^ 64

/-! ## HashMap model (replace-on-insert association list) -/

/-- Lookup in the association-list model of `std::collections::HashMap`. -/
def hmLookup (m : List (String × String)) (k : String) : Option String :=
  (m.find? (fun p => p.1 = k)).map (fun p => p.2)

/-- `HashMap::insert`: replaces any existing binding of the key. -/
def hmInsert (m : List (String × String)) (k v : String) : List (String × String) :=
  (k, v) :: m.filter (fun p => p.1 ≠ k)

/-- `HashMap::extend`: inserts every entry of `entries` in order, each
insert replacing an existing binding (so `extend` overrides). -/
def hmExtend (m : List (String × String)) (entries : List (String × String)) :
    List (String × String) :=
  entries.foldl (fun acc p => hmInsert acc p.1 p.2) m

/-! ## Data model (src/oci-image/src/state.rs, oci_spec image types) -/

/-- `LayerMetadata` from src/oci-image/src/state.rs. -/
structure LayerMetadata where
  id : String
  compressed_digest : String
  uncompressed_digest : String
  store_path : String
deriving DecidableEq

/-- The `config` section of an OCI image configuration
(`oci_spec::image::Config`), restricted to the fields the kaps code reads:
`entrypoint`, `cmd`, `env`, `working_dir`, `labels`. -/
structure Config where
  entrypoint : Option (List String)
  cmd : Option (List String)
  env : Option (List String)
  working_dir : Option String
  labels : Option (List (String × String))
deriving DecidableEq

/-- `oci_spec::image::ImageConfiguration`, restricted to the fields the
kaps code reads: `created`, `config`, and `rootfs.diff_ids`. -/
structure ImageConfiguration where
  created : Option String
  config : Option Config
  diff_ids : List String
deriving DecidableEq

/-- `ImageMetadata` from src/oci-image/src/state.rs. -/
structure ImageMetadata where
  id : String
  reference : String
  digest : String
  layers : List LayerMetadata
  config : ImageConfiguration
deriving DecidableEq

/-- `State` from src/oci-image/src/state.rs.  The two `HashMap`s are
modelled as association lists keyed by image id resp. compressed layer
digest; `index: usize` is a `Nat` kept below `USIZE` by the operations. -/
structure StateM where
  images : List (String × ImageMetadata)
  layers : List (String × LayerMetadata)
  index : Nat
deriving DecidableEq

/-- `State::default()`: empty maps, index 0. -/
def stateDefault : StateM := { images := [], layers := [], index := 0 }

/-- `MetadataManager::image` for `State`. -/
def StateM.image (s : StateM) (image_id : String) : Option ImageMetadata :=
  (s.images.find? (fun p => p.1 = image_id)).map (fun p => p.2)

/-- `MetadataManager::layer` for `State`. -/
def StateM.layer (s : StateM) (layer_id : String) : Option LayerMetadata :=
  (s.layers.find? (fun p => p.1 = layer_id)).map (fun p => p.2)

/-- `MetadataManager::has_image` for `State`. -/
def StateM.has_image (s : StateM) (image_id : String) : Bool :=
  s.images.any (fun p => p.1 = image_id)

/-- `MetadataManager::has_layer` for `State`. -/
def StateM.has_layer (s : StateM) (layer_id : String) : Bool :=
  s.layers.any (fun p => p.1 = layer_id)

/-- `MetadataManager::add_image`: `self.images.insert(image.id, image)`. -/
def StateM.add_image (s : StateM) (image : ImageMetadata) : StateM :=
  { s with images := (image.id, image) :: s.images.filter (fun p => p.1 ≠ image.id) }

/-- `MetadataManager::add_layer`:
`self.layers.insert(layer.compressed_digest, layer)`. -/
def StateM.add_layer (s : StateM) (layer : LayerMetadata) : StateM :=
  { s with layers :=
      (layer.compressed_digest, layer) :: s.layers.filter (fun p => p.1 ≠ layer.compressed_digest) }

/-- `MetadataManager::snapshot_index` for `State`: builds an `AtomicUsize`
from `self.index`, `fetch_add(1)` (which wraps modulo `2^64`), loads the
incremented value, stores it back into `self.index` and returns it. -/
def StateM.snapshot_index (s : StateM) : Nat × StateM :=
  let new_index := (s.index + 1) % USIZE
  (new_index, { s with index := new_index })

/-- Outputs of `n` successive `snapshot_index` calls on one state. -/
def snapshotSeq (s : StateM) : Nat → List Nat
  | 0 => []
  | n + 1 =>
    let r := s.snapshot_index
    r.1 :: snapshotSeq r.2 n

/-! ## Character-level helpers (Rust `str::split`, `Vec::join`) -/

/-- Rust `str::split(sep)`: `n` separators yield `n + 1` pieces, empty
pieces included (`"".split(c) == [""]`). -/
def splitChar (sep : Char) : List Char → List (List Char)
  | [] => [[]]
  | c :: rest =>
    let r := splitChar sep rest
    if c = sep then [] :: r
    else
      match r with
      | h :: t => (c :: h) :: t
      | [] => [[c]]

/-- Rust `Vec::join(sep)` on string slices, at the character level. -/
def joinChar (sep : Char) : List (List Char) → List Char
  | [] => []
  | [x] => x
  | x :: y :: rest => x ++ sep :: joinChar sep (y :: rest)

/-! ## Bundle builder (src/container/src/spec.rs) -/

/-- The OCI annotation key `org.opencontainers.image.created`
(`oci_spec::image::ANNOTATION_CREATED`). -/
def createdKey : String := "org.opencontainers.image.created"

/-- `oci_spec::runtime::Process`, restricted to the fields kaps touches. -/
structure ProcessM where
  args : Option (List String)
  env : Option (List String)
  cwd : String
deriving DecidableEq

/-- `Process::default()` from the oci_spec library: the optional fields
`args` and `env` are unset (the kaps spec relies on this: a process whose
`args` were never set is "left unset"). -/
def processDefault : ProcessM := { args := none, env := none, cwd := "" }

/-- `oci_spec::runtime::Spec`, restricted to the fields kaps builds:
`version`, `process`, `annotations`. -/
structure SpecM where
  version : String
  process : Option ProcessM
  annots : Option (List (String × String))
deriving DecidableEq

/-- `Spec::default()` from the oci_spec library (returned by
`new_runtime_config(None)`); none of the claims constrain its fields. -/
def specMDefault : SpecM := { version := "1.0.2", process := none, annots := none }

/-- `build_process` from src/container/src/spec.rs: starts from
`Process::default()`; if the image configuration has a `config` section,
collects `args = entrypoint ++ cmd`, sets `env` and `cwd` when present,
and sets `args` only when non-empty. -/
def buildProcess (image_config : ImageConfiguration) : ProcessM :=
  match image_config.config with
  | none => processDefault
  | some config =>
    let args := config.entrypoint.getD [] ++ config.cmd.getD []
    let p := processDefault
    let p := match config.env with
      | some env => { p with env := some env }
      | none => p
    let p := match config.working_dir with
      | some working_dir => { p with cwd := working_dir }
      | none => p
    if args.isEmpty then p else { p with args := some args }

/-- `build_annotations` from src/container/src/spec.rs: inserts
`org.opencontainers.image.created` from `created` when present, then
`extend`s the map with the config's `labels`. -/
def buildAnnots (image_config : ImageConfiguration) : List (String × String) :=
  let annots : List (String × String) := []
  let annots := match image_config.created with
    | some created => hmInsert annots createdKey created
    | none => annots
  match image_config.config with
  | some config =>
    match config.labels with
    | some labels => hmExtend annots labels
    | none => annots
  | none => annots

/-- `new_runtime_config` from src/container/src/spec.rs. -/
def newRuntimeConfig (image_config : Option ImageConfiguration) : SpecM :=
  match image_config with
  | some image_config =>
    { version := "1.0"
      process := some (buildProcess image_config)
      annots := some (buildAnnots image_config) }
  | none => specMDefault

/-! ## Environment (src/container/src/environment.rs) -/

/-- One iteration of `Environment::from`'s loop body on an env entry:
`var.split('=')` collected into a vector, then `(key_value[0],
key_value[1])` is pushed.  Indexing `key_value[1]` panics when the split
produced fewer than two pieces; the panic is modelled by `none`. -/
def envVarParse (var : List Char) : Option (List Char × List Char) :=
  match splitChar '=' var with
  | k :: v :: _ => some (k, v)
  | _ => none

/-- `Environment::from(&Option<Process>)`: the spec process's `env`
entries parsed in order; an absent process or absent env yields no vars;
a panic in any entry (modelled by `none`) aborts the whole conversion. -/
def environmentFrom (process : Option ProcessM) : Option (List (List Char × List Char)) :=
  match process with
  | some p =>
    match p.env with
    | some env => env.mapM (fun var => envVarParse var.data)
    | none => some []
  | none => some []

/-! ## Errors of the oci-image crate (src/oci-image/src/lib.rs) -/

/-- The `Error` enum of src/oci-image/src/lib.rs, restricted to the
variants the modelled operations can produce.  Rust formats diagnostic
strings into the payloads; the model carries the distinguishing data
(for `uncompressedLayerInvalid`: the computed uncompressed digest and the
digest from the image configuration). -/
inductive KError where
  | invalidOCIReference (image : String)
  | pullManifest (msg : String)
  | pullImage (msg : String)
  | layerDirectoryCreation (msg : String)
  | parseImageConfiguration (msg : String)
  | invalidPulledLayers (msg : String)
  | uncompressedLayerInvalid (digest image_digest : String)
  | imageNotFound (image_id : String)
  | unpackLayer (path : String)
deriving DecidableEq

/-! ## Puller (src/oci-image/src/pull.rs) -/

/-- One layer as returned by the registry client's `pull`
(`oci_distribution` blob): `sha256_digest` is the compressed digest the
client computes from the blob, `uncompressedDigest` stands for
`sha256(gunzip(layer.data))` computed in `pull_layers`, and `unpackOk`
tells whether `tar::Archive::unpack` of the uncompressed bytes succeeds. -/
structure PulledLayer where
  sha256_digest : String
  uncompressedDigest : String
  unpackOk : Bool
deriving DecidableEq

/-- The directory name for a layer: the compressed digest with `:`
replaced by `_` (`layer_sha256_digest.replace(':', "_")`; a
character-for-character substitution since both pattern and replacement
are single characters). -/
def digestDirName (digest : String) : String :=
  String.mk (digest.data.map (fun c => if c = ':' then '_' else c))

/-- The store path of a layer: `image_dir/layers/<digestDirName>`. -/
def layerStorePath (image_dir digest : String) : String :=
  image_dir ++ "/layers/" ++ digestDirName digest

/-- The per-layer loop of `Puller::pull_layers`, sequentialised (the Rust
code builds one future per layer and `try_join_all`s them; §5 of the spec
makes completion order irrelevant and sanctions a sequential reading).
The `diffs` argument is the remaining suffix of `diff_ids`, consumed one
entry per layer so that its head is `diffs[i]` for layer `i`.
For each layer, in source order:
1. cache check `state.layer(sha256_digest)` — a hit returns the stored
   metadata unchanged, with no digest verification;
2. otherwise the uncompressed digest is compared against `diffs[i]`
   (`diffs[i]` indexing panics — modelled `none` — when `i` is past the
   end of `diffs`);
3. the layer is unpacked (`UnpackLayer` on failure);
4. the metadata is built and inserted into the state via `add_layer`.
The final state is returned even when a layer fails, since the Rust state
sits behind `Arc<Mutex<_>>` and mutations survive the error. -/
def pullLayersGo (image_dir : String) :
    StateM → List String → List PulledLayer →
      Option (StateM × Except KError (List LayerMetadata))
  | st, _, [] => some (st, Except.ok [])
  | st, diffs, l :: rest =>
    match st.layer l.sha256_digest with
    | some layer_meta =>
      match pullLayersGo image_dir st (diffs.drop 1) rest with
      | none => none
      | some (st', Except.ok ms) => some (st', Except.ok (layer_meta :: ms))
      | some (st', Except.error e) => some (st', Except.error e)
    | none =>
      match diffs with
      | [] => none
      | d :: ds =>
        if l.uncompressedDigest ≠ d then
          some (st, Except.error (KError.uncompressedLayerInvalid l.uncompressedDigest d))
        else if l.unpackOk = false then
          some (st, Except.error (KError.unpackLayer (layerStorePath image_dir l.sha256_digest)))
        else
          let layer_meta : LayerMetadata :=
            { id := l.sha256_digest
              compressed_digest := l.sha256_digest
              store_path := layerStorePath image_dir l.sha256_digest
              uncompressed_digest := l.uncompressedDigest }
          match pullLayersGo image_dir (st.add_layer layer_meta) ds rest with
          | none => none
          | some (st', Except.ok ms) => some (st', Except.ok (layer_meta :: ms))
          | some (st', Except.error e) => some (st', Except.error e)

/-- `Puller::pull_layers(state, diffs)` applied to the layers the
registry returned; `none` models a Rust panic. -/
def pullLayers (image_dir : String) (st : StateM) (diffs : List String)
    (data_layers : List PulledLayer) :
    Option (StateM × Except KError (List LayerMetadata)) :=
  pullLayersGo image_dir st diffs data_layers

/-! ## Image manager (src/oci-image/src/lib.rs) -/

/-- `to_uid` from src/oci-image/src/utils.rs hashes its argument with
`DefaultHasher` and prints the `u64`.  The hash itself is a library
function; the model keeps only that `to_uid` is a deterministic function
of the string. -/
def to_uid (param : String) : String := "uid:" ++ param

/-- What the registry returns for one reference, as consumed by
`ImageManager::pull`: whether the reference parses (`Puller::new`),
whether `pull_manifest` succeeds, the manifest digest and layer count,
whether the config blob parses (`ImageConfiguration::from_reader`), the
parsed configuration, and the blobs `client.pull` hands back. -/
structure Registry where
  refOk : Bool
  manifestOk : Bool
  manifestDigest : String
  manifestLayersLen : Nat
  configOk : Bool
  config : ImageConfiguration
  dataLayers : List PulledLayer
deriving DecidableEq

instance {ε α : Type} [DecidableEq ε] [DecidableEq α] : DecidableEq (Except ε α) :=
  fun x y =>
    match x, y with
    | Except.ok a, Except.ok b =>
      if h : a = b then isTrue (h ▸ rfl) else isFalse fun hc => h (Except.ok.inj hc)
    | Except.error a, Except.error b =>
      if h : a = b then isTrue (h ▸ rfl) else isFalse fun hc => h (Except.error.inj hc)
    | Except.ok _, Except.error _ => isFalse fun hc => Except.noConfusion hc
    | Except.error _, Except.ok _ => isFalse fun hc => Except.noConfusion hc

/-- Result of `ImageManager::pull` in the model: the returned value, the
in-memory state, the persisted state (the contents of `state.json`,
abstracted to the state it records), and whether `client.pull` fetched
layer blobs from the registry. -/
structure PullOutcome where
  result : Except KError String
  state : StateM
  file : StateM
  layersFetched : Bool
deriving DecidableEq

/-- `ImageManager::pull(image, remove_existing, id)` from
src/oci-image/src/lib.rs, with the registry interaction replaced by a
`Registry` description.  Steps, in source order: construct the puller
(`InvalidOCIReference`), `pull_manifest` (`PullManifest`), derive
`image_id` (`to_uid` of the manifest digest unless caller-supplied),
return early on a state cache hit when `remove_existing` is false, parse
the configuration, require `diff_ids.len() == manifest.layers.len()`
(`InvalidPulledLayers`), pull the layers, then `add_image` and persist
the state.  `none` models a panic inside `pull_layers`. -/
def managerPull (images_dir : String) (st file : StateM) (reg : Registry)
    (image : String) (remove_existing : Bool) (id : Option String) :
    Option PullOutcome :=
  if reg.refOk = false then
    some ⟨Except.error (KError.invalidOCIReference image), st, file, false⟩
  else if reg.manifestOk = false then
    some ⟨Except.error (KError.pullManifest image), st, file, false⟩
  else
    let image_id := match id with
      | none => to_uid reg.manifestDigest
      | some id => id
    if st.has_image image_id ∧ remove_existing = false then
      some ⟨Except.ok image_id, st, file, false⟩
    else if reg.configOk = false then
      some ⟨Except.error (KError.parseImageConfiguration image), st, file, false⟩
    else if reg.config.diff_ids.length ≠ reg.manifestLayersLen then
      some ⟨Except.error (KError.invalidPulledLayers
        "Pulled number of layers is not the same defined in image configuration."),
        st, file, false⟩
    else
      match pullLayers images_dir st reg.config.diff_ids reg.dataLayers with
      | none => none
      | some (st', Except.error e) => some ⟨Except.error e, st', file, true⟩
      | some (st', Except.ok layers) =>
        let st'' := st'.add_image
          { id := image_id
            reference := image
            digest := reg.manifestDigest
            layers := layers
            config := reg.config }
        some ⟨Except.ok image_id, st'', st'', true⟩

/-! ## Overlay snapshotter (src/oci-image/src/snapshots/overlay.rs) -/

/-- The `lowerdir` value built by `OverlayFS::mount`: the layer paths it
was given, joined with `:` (`layers.join(":")`), at character level. -/
def overlayLowerdir (layers : List (List Char)) : List Char :=
  joinChar ':' layers

/-- The layer paths `ImageManager::mount` passes to the snapshotter: the
image's layers in their stored (manifest) order, mapped to `store_path`
— no reversal happens. -/
def mountLayerPaths (image : ImageMetadata) : List String :=
  image.layers.map (fun layer => layer.store_path)

/-- The first path of the `lowerdir` option a mount of `image` produces:
head of the `:`-split of the joined string. -/
def lowerdirFirstPath (image : ImageMetadata) : Option (List Char) :=
  (splitChar ':' (overlayLowerdir ((mountLayerPaths image).map String.data))).head?

/-! ## Container runner (src/container/src/lib.rs) -/

/-- The `Error` enum of src/container/src/lib.rs, restricted to the
variants `Container::run` can produce. -/
inductive CError where
  | containerWaitCommand
  | containerExit (code : Int)
  | unmountErr
  | statusLockPoisoned
  | removeStateFile
deriving DecidableEq

/-- Side effects `Container::run` can perform, in the order performed. -/
inductive RunEvent where
  | cpuCreate
  | memCreate
  | cpuApply
  | memApply
  | spawnChild
  | setStatusRunning
  | waitChild
  | cpuDelete
  | memDelete
  | mountsCleanup
  | stateRemove
deriving DecidableEq

/-- The outcomes of the fallible steps of one `Container::run` call.
`Cpu::new`, `Memory::new` and the two `apply`s `unwrap()` their results
(a failure there is a panic, not a return), so they are modelled as
succeeding. `exitCode` is `child.wait()?.code()`. -/
structure RunWorld where
  hasCpuResources : Bool
  hasMemResources : Bool
  spawnOk : Bool
  setStatusOk : Bool
  waitOk : Bool
  exitCode : Option Int
  cleanupOk : Bool
  removeOk : Bool
deriving DecidableEq

/-- `Container::run` from src/container/src/lib.rs, step by step:
create both cgroups, apply present resource limits, spawn the child
(on failure: `return self.mounts.cleanup(rootfs)` — nothing else runs),
record the pid and set status `Running` (`?`), wait (`?`), then delete
the cpu cgroup, delete the memory cgroup, clean the mounts (`?`), remove
the container state (`?`), and finally surface `ContainerExit` when the
child exited non-zero.  Returns the result paired with the events that
ran. -/
def containerRun (w : RunWorld) : Except CError Unit × List RunEvent :=
  let ev := [RunEvent.cpuCreate, RunEvent.memCreate]
  let ev := ev ++ (if w.hasCpuResources then [RunEvent.cpuApply] else [])
  let ev := ev ++ (if w.hasMemResources then [RunEvent.memApply] else [])
  let ev := ev ++ [RunEvent.spawnChild]
  if w.spawnOk = false then
    ((if w.cleanupOk then Except.ok () else Except.error CError.unmountErr),
      ev ++ [RunEvent.mountsCleanup])
  else
    let ev := ev ++ [RunEvent.setStatusRunning]
    if w.setStatusOk = false then (Except.error CError.statusLockPoisoned, ev)
    else
      let ev := ev ++ [RunEvent.waitChild]
      if w.waitOk = false then (Except.error CError.containerWaitCommand, ev)
      else
        let ev := ev ++ [RunEvent.cpuDelete, RunEvent.memDelete, RunEvent.mountsCleanup]
        if w.cleanupOk = false then (Except.error CError.unmountErr, ev)
        else
          let ev := ev ++ [RunEvent.stateRemove]
          if w.removeOk = false then (Except.error CError.removeStateFile, ev)
          else
            match w.exitCode with
            | some code =>
              if code ≠ 0 then (Except.error (CError.containerExit code), ev)
              else (Except.ok (), ev)
            | none => (Except.ok (), ev)

/-! ## State persistence (src/oci-image/src/state.rs)

`State::save` serializes with `serde_json::to_string_pretty` and writes
the bytes through a handle opened with `OpenOptions::new().write(true)`
— crucially without `truncate(true)` — so the bytes overwrite the start
of the file and any old bytes past the new length survive.
`State::try_from` reads the file with `serde_json::from_reader`, which
accepts exactly one serialized value followed by nothing but whitespace,
and falls back to `State::default()` when parsing fails.

The serializer is modelled by an explicit self-delimiting encoding of
`StateM` into characters together with its exact decoder.  This captures
the three properties of the serde pair that the code relies on: the
encoding is deterministic, a value's encoding is self-delimiting, and
the decoder rejects any trailing non-whitespace garbage. -/

/-- Encode a `Nat` as its decimal digits followed by `,`. -/
def encNat (n : Nat) : List Char := (Nat.repr n).data ++ [',']

/-- Decode a `Nat`: leading digits up to a `,`. -/
def decNat (s : List Char) : Option (Nat × List Char) :=
  let ds := s.takeWhile (fun c => c.isDigit)
  let rest := s.dropWhile (fun c => c.isDigit)
  if ds.isEmpty then none
  else
    match rest with
    | ',' :: r => some (ds.foldl (fun a c => a * 10 + (c.toNat - 48)) 0, r)
    | _ => none

/-- Encode a string, length-prefixed. -/
def encStr (s : String) : List Char := encNat s.data.length ++ s.data

/-- Decode a length-prefixed string. -/
def decStr (s : List Char) : Option (String × List Char) := do
  let (n, r) ← decNat s
  if n ≤ r.length then some (String.mk (r.take n), r.drop n) else none

/-- Encode a list, length-prefixed. -/
def encListWith (enc : α → List Char) (xs : List α) : List Char :=
  encNat xs.length ++ (xs.map enc).flatten

/-- Decode exactly `n` values. -/
def decListWith (dec : List Char → Option (α × List Char)) :
    Nat → List Char → Option (List α × List Char)
  | 0, s => some ([], s)
  | n + 1, s => do
    let (a, s') ← dec s
    let (as, s'') ← decListWith dec n s'
    some (a :: as, s'')

/-- Decode a length-prefixed list. -/
def decListAll (dec : List Char → Option (α × List Char)) (s : List Char) :
    Option (List α × List Char) := do
  let (n, s') ← decNat s
  decListWith dec n s'

/-- Encode an option as a 0/1 tag plus payload. -/
def encOptWith (enc : α → List Char) : Option α → List Char
  | none => encNat 0
  | some a => encNat 1 ++ enc a

/-- Decode an option. -/
def decOptWith (dec : List Char → Option (α × List Char)) (s : List Char) :
    Option (Option α × List Char) := do
  let (t, s') ← decNat s
  match t with
  | 0 => some (none, s')
  | 1 => do
    let (a, s'') ← dec s'
    some (some a, s'')
  | _ => none

/-- Encode a pair of strings. -/
def encStrPair (p : String × String) : List Char := encStr p.1 ++ encStr p.2

/-- Decode a pair of strings. -/
def decStrPair (s : List Char) : Option ((String × String) × List Char) := do
  let (a, s') ← decStr s
  let (b, s'') ← decStr s'
  some ((a, b), s'')

/-- Encode a `Config`. -/
def encConfig (c : Config) : List Char :=
  encOptWith (encListWith encStr) c.entrypoint ++
    encOptWith (encListWith encStr) c.cmd ++
    encOptWith (encListWith encStr) c.env ++
    encOptWith encStr c.working_dir ++
    encOptWith (encListWith encStrPair) c.labels

/-- Decode a `Config`. -/
def decConfig (s : List Char) : Option (Config × List Char) := do
  let (entrypoint, s) ← decOptWith (decListAll decStr) s
  let (cmd, s) ← decOptWith (decListAll decStr) s
  let (env, s) ← decOptWith (decListAll decStr) s
  let (working_dir, s) ← decOptWith decStr s
  let (labels, s) ← decOptWith (decListAll decStrPair) s
  some ({ entrypoint, cmd, env, working_dir, labels }, s)

/-- Encode an `ImageConfiguration`. -/
def encImageConfig (ic : ImageConfiguration) : List Char :=
  encOptWith encStr ic.created ++ encOptWith encConfig ic.config ++
    encListWith encStr ic.diff_ids

/-- Decode an `ImageConfiguration`. -/
def decImageConfig (s : List Char) : Option (ImageConfiguration × List Char) := do
  let (created, s) ← decOptWith decStr s
  let (config, s) ← decOptWith decConfig s
  let (diff_ids, s) ← decListAll decStr s
  some ({ created, config, diff_ids }, s)

/-- Encode a `LayerMetadata`. -/
def encLayerMeta (lm : LayerMetadata) : List Char :=
  encStr lm.id ++ encStr lm.compressed_digest ++ encStr lm.uncompressed_digest ++
    encStr lm.store_path

/-- Decode a `LayerMetadata`. -/
def decLayerMeta (s : List Char) : Option (LayerMetadata × List Char) := do
  let (id, s) ← decStr s
  let (compressed_digest, s) ← decStr s
  let (uncompressed_digest, s) ← decStr s
  let (store_path, s) ← decStr s
  some ({ id, compressed_digest, uncompressed_digest, store_path }, s)

/-- Encode an `ImageMetadata`. -/
def encImageMeta (im : ImageMetadata) : List Char :=
  encStr im.id ++ encStr im.reference ++ encStr im.digest ++
    encListWith encLayerMeta im.layers ++ encImageConfig im.config

/-- Decode an `ImageMetadata`. -/
def decImageMeta (s : List Char) : Option (ImageMetadata × List Char) := do
  let (id, s) ← decStr s
  let (reference, s) ← decStr s
  let (digest, s) ← decStr s
  let (layers, s) ← decListAll decLayerMeta s
  let (config, s) ← decImageConfig s
  some ({ id, reference, digest, layers, config }, s)

/-- Encode a keyed entry of one of the state's maps. -/
def encKeyedWith (enc : α → List Char) (p : String × α) : List Char :=
  encStr p.1 ++ enc p.2

/-- Decode a keyed entry. -/
def decKeyedWith (dec : List Char → Option (α × List Char)) (s : List Char) :
    Option ((String × α) × List Char) := do
  let (k, s') ← decStr s
  let (a, s'') ← dec s'
  some ((k, a), s'')

/-- `serde_json::to_string_pretty(&state)`, modelled by the explicit
self-delimiting encoding. -/
def encState (st : StateM) : List Char :=
  encListWith (encKeyedWith encImageMeta) st.images ++
    encListWith (encKeyedWith encLayerMeta) st.layers ++
    encNat st.index

/-- The exact decoder of `encState`. -/
def decState (s : List Char) : Option (StateM × List Char) := do
  let (images, s) ← decListAll (decKeyedWith decImageMeta) s
  let (layers, s) ← decListAll (decKeyedWith decLayerMeta) s
  let (index, s) ← decNat s
  some ({ images, layers, index }, s)

/-- `State::save(path)`: serialize, open the existing file with
`write(true)` (no truncation) and `write_all` from the start.  The new
bytes overwrite a prefix of the old contents; old bytes past the new
length remain in the file. -/
def stateSave (old_contents : List Char) (st : StateM) : List Char :=
  encState st ++ old_contents.drop (encState st).length

/-- `State::try_from(path)`: `serde_json::from_reader` parses one value
and requires only whitespace after it; any failure falls back to
`State::default()`. -/
def stateLoad (contents : List Char) : StateM :=
  match decState contents with
  | some (st, rest) => if rest.all (fun c => c.isWhitespace) then st else stateDefault
  | none => stateDefault

/-! ## Concrete fixtures used by the claim theorems -/

/-- A layer cached in the state whose recorded uncompressed digest does
not match what the image configuration will claim. -/
def c1meta : LayerMetadata :=
  { id := "sha256:c1"
    compressed_digest := "sha256:c1"
    uncompressed_digest := "sha256:cached"
    store_path := "/data/images/layers/sha256_c1" }

/-- A state that already maps the compressed digest of `c1layer`. -/
def c1state : StateM := { images := [], layers := [("sha256:c1", c1meta)], index := 0 }

/-- The registry blob for the cached layer: its actual uncompressed
digest agrees with neither the cache entry nor the diff id. -/
def c1layer : PulledLayer :=
  { sha256_digest := "sha256:c1", uncompressedDigest := "sha256:actual", unpackOk := true }

/-- A mixed pull for the C1 witness: the first layer is cached in
`c1state`, the second is fresh. -/
def c1mixLayers : List PulledLayer :=
  [c1layer,
   { sha256_digest := "sha256:x2", uncompressedDigest := "sha256:d2", unpackOk := true }]

/-- Diff ids for the mixed pull: the fresh layer's diff id matches. -/
def c1mixDiffs : List String := ["sha256:expected", "sha256:d2"]

/-- Diff ids whose second entry mismatches the fresh layer's actual
uncompressed digest. -/
def c1badDiffs : List String := ["sha256:expected", "sha256:mismatch"]

/-- The metadata `pull_layers` builds for the fresh layer of
`c1mixLayers`. -/
def c1meta2 : LayerMetadata :=
  { id := "sha256:x2"
    compressed_digest := "sha256:x2"
    uncompressed_digest := "sha256:d2"
    store_path := "/data/images/layers/sha256_x2" }

/-- A run whose child spawn fails and everything else would succeed. -/
def c2spawnFail : RunWorld :=
  { hasCpuResources := true, hasMemResources := true, spawnOk := false,
    setStatusOk := true, waitOk := true, exitCode := none,
    cleanupOk := true, removeOk := true }

/-- A run whose `child.wait()` fails after a successful spawn. -/
def c2waitFail : RunWorld :=
  { hasCpuResources := true, hasMemResources := true, spawnOk := true,
    setStatusOk := true, waitOk := false, exitCode := none,
    cleanupOk := true, removeOk := true }

/-- A two-layer image in manifest order (`sha256:a` first). -/
def c3image : ImageMetadata :=
  { id := "img", reference := "docker.io/library/img", digest := "sha256:m"
    layers :=
      [ { id := "sha256:a", compressed_digest := "sha256:a",
          uncompressed_digest := "sha256:ua", store_path := "/data/layers/sha256_a" },
        { id := "sha256:b", compressed_digest := "sha256:b",
          uncompressed_digest := "sha256:ub", store_path := "/data/layers/sha256_b" } ]
    config := { created := none, config := none, diff_ids := ["sha256:ua", "sha256:ub"] } }

/-- A previously saved state whose serialization is longer than that of
`c4new` (its index has more digits). -/
def c4old : StateM := { images := [], layers := [], index := 123456789 }

/-- The shorter state saved over `c4old`'s file contents. -/
def c4new : StateM := { images := [], layers := [], index := 5 }

/-- First registry layer of the C5 scenario: digest matches its diff id. -/
def c5goodLayer : PulledLayer :=
  { sha256_digest := "sha256:g", uncompressedDigest := "sha256:dg", unpackOk := true }

/-- Second registry layer of the C5 scenario: digest mismatch. -/
def c5badLayer : PulledLayer :=
  { sha256_digest := "sha256:b", uncompressedDigest := "sha256:db", unpackOk := true }

/-- A registry answer whose second layer fails digest verification. -/
def c5reg : Registry :=
  { refOk := true, manifestOk := true, manifestDigest := "sha256:m",
    manifestLayersLen := 2, configOk := true,
    config := { created := none, config := none, diff_ids := ["sha256:dg", "sha256:wrong"] },
    dataLayers := [c5goodLayer, c5badLayer] }

/-- The metadata `pull_layers` inserts for `c5goodLayer` before the
second layer fails. -/
def c5meta : LayerMetadata :=
  { id := "sha256:g", compressed_digest := "sha256:g",
    uncompressed_digest := "sha256:dg", store_path := "/data/images/layers/sha256_g" }

/-- A registry answer whose layer count disagrees with its diff ids. -/
def c5regCount : Registry :=
  { refOk := true, manifestOk := true, manifestDigest := "sha256:m",
    manifestLayersLen := 2, configOk := true,
    config := { created := none, config := none, diff_ids := ["sha256:dg"] },
    dataLayers := [c5goodLayer] }

/-- An image configuration whose labels contain the created key. -/
def c6cfg : ImageConfiguration :=
  { created := some "2022-01-01T00:00:00Z"
    config := some
      { entrypoint := none, cmd := none, env := none, working_dir := none,
        labels := some [(createdKey, "from-label")] }
    diff_ids := [] }

/-- An image configuration with created set and collision-free labels. -/
def c6cfgW : ImageConfiguration :=
  { created := some "2022-01-01T00:00:00Z"
    config := some
      { entrypoint := none, cmd := none, env := none, working_dir := none,
        labels := some [("maintainer", "someone")] }
    diff_ids := [] }

/-- The S4 fixture of the spec: entrypoint, cmd, env, working dir all
present. -/
def c7cfg : ImageConfiguration :=
  { created := none
    config := some
      { entrypoint := some ["bash"], cmd := some ["-c", "ls"],
        env := some ["PATH=/usr/local/sbin"], working_dir := some "/home",
        labels := none }
    diff_ids := [] }

/-- A state whose snapshot counter is two below the `usize` wrap. -/
def c8state : StateM := { images := [], layers := [], index := USIZE - 2 }

/-- A state that already holds an image under id "known". -/
def c9state : StateM :=
  { images := [("known",
      { id := "known", reference := "docker.io/library/img", digest := "sha256:m",
        layers := [], config := { created := none, config := none, diff_ids := [] } })]
    layers := [], index := 0 }

/-- A registry answer for the C9 cache-hit scenario. -/
def c9reg : Registry :=
  { refOk := true, manifestOk := true, manifestDigest := "sha256:m",
    manifestLayersLen := 0, configOk := true,
    config := { created := none, config := none, diff_ids := [] },
    dataLayers := [] }

/-- The outcome of pulling `c5regCount` over `c9state`: the layer-count
check fails before any layer work. -/
def c5out : PullOutcome :=
  { result := Except.error (KError.invalidPulledLayers
      "Pulled number of layers is not the same defined in image configuration.")
    state := c9state, file := c9state, layersFetched := false }

/-! ## Helper lemmas -/

theorem splitChar_ne_nil (sep : Char) (s : List Char) : splitChar sep s ≠ [] := by
  cases s with
  | nil => simp [splitChar]
  | cons c rest =>
    simp only [splitChar]
    split
    · simp
    · rcases h : splitChar sep rest with _ | ⟨h', t'⟩ <;> simp

/-- Splitting a string that starts with a separator-free prefix `k`
followed by the separator yields `k` as the first piece. -/
theorem splitChar_append (sep : Char) (k t : List Char) (hk : sep ∉ k) :
    splitChar sep (k ++ sep :: t) = k :: splitChar sep t := by
  induction k with
  | nil => simp [splitChar]
  | cons c k ih =>
    have hc : c ≠ sep := by
      intro h
      exact hk (by simp [h])
    have hk' : sep ∉ k := fun h => hk (List.mem_cons_of_mem _ h)
    simp only [List.cons_append, splitChar, List.append_eq, ih hk', if_neg hc]

/-- Splitting a separator-free string yields that single piece. -/
theorem splitChar_of_not_mem (sep : Char) (s : List Char) (hs : sep ∉ s) :
    splitChar sep s = [s] := by
  induction s with
  | nil => simp [splitChar]
  | cons c rest ih =>
    have hc : c ≠ sep := by
      intro h
      exact hs (by simp [h])
    have hs' : sep ∉ rest := fun h => hs (List.mem_cons_of_mem _ h)
    simp [splitChar, ih hs', hc]

/-- Splitting inverts joining when no piece contains the separator. -/
theorem splitChar_joinChar (sep : Char) (xs : List (List Char)) (hne : xs ≠ [])
    (hsep : ∀ x ∈ xs, sep ∉ x) : splitChar sep (joinChar sep xs) = xs := by
  induction xs with
  | nil => exact absurd rfl hne
  | cons x ys ih =>
    cases ys with
    | nil =>
      simpa [joinChar] using splitChar_of_not_mem sep x (hsep x (by simp))
    | cons y zs =>
      have hx : sep ∉ x := hsep x (by simp)
      have hrest : ∀ z ∈ y :: zs, sep ∉ z := fun z hz => hsep z (List.mem_cons_of_mem _ hz)
      simp only [joinChar, splitChar_append sep x _ hx]
      rw [ih (by simp) hrest]

/-- Taking `n + 1` elements and dropping the head is taking `n` from
the tail. -/
theorem takeSuccDropOne {α : Type} (xs : List α) (n : Nat) :
    (xs.take (n + 1)).drop 1 = (xs.drop 1).take n := by
  cases xs <;> simp

/-- Indexing the tail shifts the index by one. -/
theorem getElemDropOne {α : Type} (xs : List α) (j : Nat) :
    (xs.drop 1)[j]? = xs[j + 1]? := by
  cases xs <;> simp

/-- Searching for key `k` is unaffected by dropping entries with a
different key `a`. -/
theorem find?_filter_ne {α : Type} (m : List (String × α)) (a k : String) (h : a ≠ k) :
    (m.filter (fun p => p.1 ≠ a)).find? (fun p => p.1 = k) =
      m.find? (fun p => p.1 = k) := by
  induction m with
  | nil => rfl
  | cons q m ih =>
    rw [List.filter_cons]
    by_cases hq : q.1 = a
    · have hqk : ¬(q.1 = k) := fun hk => h (hq.symm.trans hk)
      rw [if_neg (by simp [hq]), ih, List.find?_cons_of_neg _ (by simp [hqk])]
    · rw [if_pos (by simp [hq])]
      by_cases hk : q.1 = k
      · rw [List.find?_cons_of_pos _ (by simp [hk]), List.find?_cons_of_pos _ (by simp [hk])]
      · rw [List.find?_cons_of_neg _ (by simp [hk]), List.find?_cons_of_neg _ (by simp [hk]), ih]

/-- `HashMap::insert` followed by lookup. -/
theorem hmLookup_hmInsert (m : List (String × String)) (a b k : String) :
    hmLookup (hmInsert m a b) k = if a = k then some b else hmLookup m k := by
  simp only [hmLookup, hmInsert]
  by_cases h : a = k
  · rw [if_pos h, List.find?_cons_of_pos _ (by simp [h])]
    rfl
  · rw [if_neg h, List.find?_cons_of_neg _ (by simp [h]), find?_filter_ne m a k h]

/-- Lookup after `extend`: entries of `entries` win over entries of `m`. -/
theorem hmLookup_hmExtend (entries : List (String × String)) (m : List (String × String))
    (k : String) :
    hmLookup (hmExtend m entries) k =
      match hmLookup (hmExtend [] entries) k with
      | some v => some v
      | none => hmLookup m k := by
  induction entries generalizing m with
  | nil => simp [hmExtend, hmLookup, List.find?]
  | cons p entries ih =>
    show hmLookup (hmExtend (hmInsert m p.1 p.2) entries) k = _
    rw [ih (hmInsert m p.1 p.2)]
    conv_rhs => rw [show hmExtend [] (p :: entries) = hmExtend (hmInsert [] p.1 p.2) entries from rfl]
    rw [ih (hmInsert [] p.1 p.2)]
    cases hmLookup (hmExtend [] entries) k with
    | some v => rfl
    | none =>
      rw [hmLookup_hmInsert, hmLookup_hmInsert]
      by_cases h : p.1 = k
      · simp [h]
      · simp [h, hmLookup]

/-- `add_layer` followed by `layer` lookup. -/
theorem StateM.layer_add_layer (s : StateM) (lm : LayerMetadata) (k : String) :
    (s.add_layer lm).layer k =
      if lm.compressed_digest = k then some lm else s.layer k := by
  simp only [StateM.layer, StateM.add_layer]
  by_cases h : lm.compressed_digest = k
  · rw [if_pos h, List.find?_cons_of_pos _ (by simp [h])]
    rfl
  · rw [if_neg h, List.find?_cons_of_neg _ (by simp [h]),
      find?_filter_ne s.layers lm.compressed_digest k h]

/-- `add_layer` leaves the image map untouched. -/
theorem StateM.images_add_layer (s : StateM) (lm : LayerMetadata) :
    (s.add_layer lm).images = s.images := rfl

/-- `pull_layers` never touches the image map, whatever it returns. -/
theorem pullLayersGo_images (image_dir : String) :
    ∀ (layers : List PulledLayer) (st : StateM) (diffs : List String)
      (st' : StateM) (r : Except KError (List LayerMetadata)),
      pullLayersGo image_dir st diffs layers = some (st', r) → st'.images = st.images := by
  intro layers
  induction layers with
  | nil =>
    intro st diffs st' r h
    simp only [pullLayersGo] at h
    cases h
    rfl
  | cons l rest ih =>
    intro st diffs st' r h
    simp only [pullLayersGo] at h
    cases hcache : st.layer l.sha256_digest with
    | some layer_meta =>
      simp only [hcache] at h
      cases hrec : pullLayersGo image_dir st (diffs.drop 1) rest with
      | none =>
        simp only [hrec] at h
        exact Option.noConfusion h
      | some p =>
        obtain ⟨st'', r'⟩ := p
        simp only [hrec] at h
        cases r' with
        | ok ms =>
          simp only [Option.some.injEq, Prod.mk.injEq] at h
          exact h.1 ▸ ih st (diffs.drop 1) st'' (Except.ok ms) hrec
        | error e =>
          simp only [Option.some.injEq, Prod.mk.injEq] at h
          exact h.1 ▸ ih st (diffs.drop 1) st'' (Except.error e) hrec
    | none =>
      cases diffs with
      | nil =>
        simp only [hcache] at h
        exact Option.noConfusion h
      | cons d ds =>
        simp only [hcache] at h
        by_cases hd : l.uncompressedDigest ≠ d
        · rw [if_pos hd] at h
          cases h
          rfl
        · rw [if_neg hd] at h
          by_cases hu : l.unpackOk = false
          · rw [if_pos hu] at h
            cases h
            rfl
          · rw [if_neg hu] at h
            cases hrec : pullLayersGo image_dir
                (st.add_layer
                  { id := l.sha256_digest, compressed_digest := l.sha256_digest,
                    store_path := layerStorePath image_dir l.sha256_digest,
                    uncompressed_digest := l.uncompressedDigest }) ds rest with
            | none =>
              simp only [hrec] at h
              exact Option.noConfusion h
            | some p =>
              obtain ⟨st'', r'⟩ := p
              simp only [hrec] at h
              have himg := ih _ ds st'' r' hrec
              cases r' with
              | ok ms =>
                simp only [Option.some.injEq, Prod.mk.injEq] at h
                rw [← h.1, himg]
                rfl
              | error e =>
                simp only [Option.some.injEq, Prod.mk.injEq] at h
                rw [← h.1, himg]
                rfl

/-- Per-layer account of every successful `pull_layers` call, with no
assumption on the initial state: for each position `i`, the state at
which layer `i` is reached is the state component of running the same
function on the `i`-prefix (which provably succeeds, returning the first
`i` results); if that state already maps the layer's compressed digest,
the stored metadata is returned unverified (cache hit), and otherwise
the returned metadata records the layer's actual uncompressed digest and
that digest equals `diffs[i]`. -/
theorem pullLayersGo_success_spec (image_dir : String) :
    ∀ (layers : List PulledLayer) (st : StateM) (diffs : List String)
      (st' : StateM) (ms : List LayerMetadata),
      pullLayersGo image_dir st diffs layers = some (st', Except.ok ms) →
      ms.length = layers.length ∧
      ∀ i, i < layers.length →
        ∃ (pl : PulledLayer) (lm : LayerMetadata) (sti : StateM),
          layers[i]? = some pl ∧ ms[i]? = some lm ∧
          pullLayersGo image_dir st (diffs.take i) (layers.take i) =
            some (sti, Except.ok (ms.take i)) ∧
          (sti.layer pl.sha256_digest = some lm ∨
           (sti.layer pl.sha256_digest = none ∧
            lm.uncompressed_digest = pl.uncompressedDigest ∧
            diffs[i]? = some lm.uncompressed_digest)) := by
  intro layers
  induction layers with
  | nil =>
    intro st diffs st' ms h
    simp only [pullLayersGo, Option.some.injEq, Prod.mk.injEq, Except.ok.injEq] at h
    constructor
    · rw [← h.2]
      rfl
    · intro i hi
      exact absurd hi (Nat.not_lt_zero i)
  | cons l rest ih =>
    intro st diffs st' ms h
    simp only [pullLayersGo] at h
    cases hcache : st.layer l.sha256_digest with
    | some m =>
      simp only [hcache] at h
      cases hrec : pullLayersGo image_dir st (diffs.drop 1) rest with
      | none =>
        rw [hrec] at h
        exact Option.noConfusion h
      | some p =>
        obtain ⟨st'', r'⟩ := p
        rw [hrec] at h
        cases r' with
        | error e =>
          simp only [Option.some.injEq, Prod.mk.injEq] at h
          exact absurd h.2 (fun hc => Except.noConfusion hc)
        | ok ms' =>
          simp only [Option.some.injEq, Prod.mk.injEq, Except.ok.injEq] at h
          obtain ⟨IHlen, IHidx⟩ := ih st (diffs.drop 1) st'' ms' hrec
          constructor
          · rw [← h.2]
            simp [IHlen]
          · intro i hi
            cases i with
            | zero =>
              refine ⟨l, m, st, by simp, ?_, ?_, Or.inl hcache⟩
              · rw [← h.2]
                simp
              · simp [pullLayersGo]
            | succ j =>
              have hj : j < rest.length := by simpa using hi
              obtain ⟨pl, lm, sti, h1, h2, h3, h4⟩ := IHidx j hj
              refine ⟨pl, lm, sti, by simpa using h1, ?_, ?_, ?_⟩
              · rw [← h.2]
                simpa using h2
              · rw [← h.2]
                simp only [List.take_succ_cons]
                simp only [pullLayersGo, hcache, takeSuccDropOne, h3]
              · rcases h4 with h4 | ⟨hn, he, hd⟩
                · exact Or.inl h4
                · refine Or.inr ⟨hn, he, ?_⟩
                  rw [← getElemDropOne]
                  exact hd
    | none =>
      cases diffs with
      | nil =>
        simp only [hcache] at h
        exact Option.noConfusion h
      | cons d ds =>
        simp only [hcache] at h
        by_cases hd : l.uncompressedDigest ≠ d
        · rw [if_pos hd] at h
          simp only [Option.some.injEq, Prod.mk.injEq] at h
          exact absurd h.2 (fun hc => Except.noConfusion hc)
        · rw [if_neg hd] at h
          have hdeq : l.uncompressedDigest = d := not_not.mp hd
          by_cases hu : l.unpackOk = false
          · rw [if_pos hu] at h
            simp only [Option.some.injEq, Prod.mk.injEq] at h
            exact absurd h.2 (fun hc => Except.noConfusion hc)
          · rw [if_neg hu] at h
            cases hrec : pullLayersGo image_dir
                (st.add_layer
                  { id := l.sha256_digest, compressed_digest := l.sha256_digest,
                    store_path := layerStorePath image_dir l.sha256_digest,
                    uncompressed_digest := l.uncompressedDigest }) ds rest with
            | none =>
              rw [hrec] at h
              exact Option.noConfusion h
            | some p =>
              obtain ⟨st'', r'⟩ := p
              rw [hrec] at h
              cases r' with
              | error e =>
                simp only [Option.some.injEq, Prod.mk.injEq] at h
                exact absurd h.2 (fun hc => Except.noConfusion hc)
              | ok ms' =>
                simp only [Option.some.injEq, Prod.mk.injEq, Except.ok.injEq] at h
                obtain ⟨IHlen, IHidx⟩ := ih
                  (st.add_layer
                    { id := l.sha256_digest, compressed_digest := l.sha256_digest,
                      store_path := layerStorePath image_dir l.sha256_digest,
                      uncompressed_digest := l.uncompressedDigest }) ds st'' ms' hrec
                constructor
                · rw [← h.2]
                  simp [IHlen]
                · intro i hi
                  cases i with
                  | zero =>
                    refine ⟨l, ⟨l.sha256_digest, l.sha256_digest, l.uncompressedDigest,
                      layerStorePath image_dir l.sha256_digest⟩, st, by simp, ?_, ?_,
                      Or.inr ⟨hcache, rfl, ?_⟩⟩
                    · rw [← h.2]
                      simp
                    · simp [pullLayersGo]
                    · simpa using hdeq.symm
                  | succ j =>
                    have hj : j < rest.length := by simpa using hi
                    obtain ⟨pl, lm, sti, h1, h2, h3, h4⟩ := IHidx j hj
                    refine ⟨pl, lm, sti, by simpa using h1, ?_, ?_, ?_⟩
                    · rw [← h.2]
                      simpa using h2
                    · rw [← h.2]
                      simp only [List.take_succ_cons]
                      simp only [pullLayersGo, hcache, if_neg hd, if_neg hu, h3]
                    · rcases h4 with h4 | ⟨hn, he, hdj⟩
                      · exact Or.inl h4
                      · exact Or.inr ⟨hn, he, by simpa using hdj⟩

/-- A digest mismatch on a layer reached on the non-cache path fails the
whole `pull_layers` call with `UncompressedLayerInvalid` carrying the
layer's actual uncompressed digest and the diff id, whatever happened on
the earlier layers (cached or fresh). -/
theorem pullLayersGo_mismatch_error (image_dir : String) :
    ∀ (layers : List PulledLayer) (st : StateM) (diffs : List String) (i : Nat)
      (pl : PulledLayer) (sti : StateM) (msi : List LayerMetadata) (d : String),
      layers[i]? = some pl →
      pullLayersGo image_dir st (diffs.take i) (layers.take i) =
        some (sti, Except.ok msi) →
      sti.layer pl.sha256_digest = none →
      diffs[i]? = some d →
      pl.uncompressedDigest ≠ d →
      ∃ st'' : StateM,
        pullLayersGo image_dir st diffs layers =
          some (st'', Except.error (KError.uncompressedLayerInvalid pl.uncompressedDigest d)) := by
  intro layers
  induction layers with
  | nil =>
    intro st diffs i pl sti msi d hpl _ _ _ _
    simp at hpl
  | cons l rest ih =>
    intro st diffs i pl sti msi d hpl hpre hfresh hdi hne
    cases i with
    | zero =>
      simp only [List.take_zero, pullLayersGo, Option.some.injEq, Prod.mk.injEq,
        Except.ok.injEq] at hpre
      obtain ⟨h1, h2⟩ := hpre
      subst h1
      simp only [List.getElem?_cons_zero, Option.some.injEq] at hpl
      subst hpl
      cases diffs with
      | nil => simp at hdi
      | cons d0 ds =>
        simp only [List.getElem?_cons_zero, Option.some.injEq] at hdi
        subst hdi
        refine ⟨st, ?_⟩
        simp only [pullLayersGo, hfresh, if_pos hne]
    | succ j =>
      have hplr : rest[j]? = some pl := by simpa using hpl
      rw [List.take_succ_cons] at hpre
      simp only [pullLayersGo] at hpre
      cases hcache : st.layer l.sha256_digest with
      | some m =>
        simp only [hcache, takeSuccDropOne] at hpre
        cases hrec : pullLayersGo image_dir st ((diffs.drop 1).take j) (rest.take j) with
        | none =>
          rw [hrec] at hpre
          exact Option.noConfusion hpre
        | some p =>
          obtain ⟨st2, r2⟩ := p
          rw [hrec] at hpre
          cases r2 with
          | error e =>
            simp only [Option.some.injEq, Prod.mk.injEq] at hpre
            exact absurd hpre.2 (fun hc => Except.noConfusion hc)
          | ok ms2 =>
            simp only [Option.some.injEq, Prod.mk.injEq, Except.ok.injEq] at hpre
            obtain ⟨st'', hrun⟩ := ih st (diffs.drop 1) j pl st2 ms2 d hplr hrec
              (by rw [hpre.1]; exact hfresh)
              (by rw [getElemDropOne]; simpa using hdi) hne
            refine ⟨st'', ?_⟩
            simp only [pullLayersGo, hcache, hrun]
      | none =>
        cases diffs with
        | nil => simp at hdi
        | cons d0 ds =>
          rw [List.take_succ_cons] at hpre
          simp only [hcache] at hpre
          by_cases hd0 : l.uncompressedDigest ≠ d0
          · rw [if_pos hd0] at hpre
            simp only [Option.some.injEq, Prod.mk.injEq] at hpre
            exact absurd hpre.2 (fun hc => Except.noConfusion hc)
          · rw [if_neg hd0] at hpre
            by_cases hu : l.unpackOk = false
            · rw [if_pos hu] at hpre
              simp only [Option.some.injEq, Prod.mk.injEq] at hpre
              exact absurd hpre.2 (fun hc => Except.noConfusion hc)
            · rw [if_neg hu] at hpre
              cases hrec : pullLayersGo image_dir
                  (st.add_layer
                    { id := l.sha256_digest, compressed_digest := l.sha256_digest,
                      store_path := layerStorePath image_dir l.sha256_digest,
                      uncompressed_digest := l.uncompressedDigest }) (ds.take j)
                  (rest.take j) with
              | none =>
                rw [hrec] at hpre
                exact Option.noConfusion hpre
              | some p =>
                obtain ⟨st2, r2⟩ := p
                rw [hrec] at hpre
                cases r2 with
                | error e =>
                  simp only [Option.some.injEq, Prod.mk.injEq] at hpre
                  exact absurd hpre.2 (fun hc => Except.noConfusion hc)
                | ok ms2 =>
                  simp only [Option.some.injEq, Prod.mk.injEq, Except.ok.injEq] at hpre
                  obtain ⟨st'', hrun⟩ := ih
                    (st.add_layer
                      { id := l.sha256_digest, compressed_digest := l.sha256_digest,
                        store_path := layerStorePath image_dir l.sha256_digest,
                        uncompressed_digest := l.uncompressedDigest }) ds j pl st2 ms2 d
                    hplr hrec (by rw [hpre.1]; exact hfresh) (by simpa using hdi) hne
                  refine ⟨st'', ?_⟩
                  simp only [pullLayersGo, hcache, if_neg hd0, if_neg hu, hrun]

/-- C1: in every successful `pull_layers` call, each layer `i` is
either satisfied from the cache when reached — the state at that point
(the state component of running `pull_layers` on the `i`-prefix, which
provably succeeds with the first `i` results) already maps its
compressed digest, and the stored metadata is returned with no
verification against `diff_ids[i]` — or processed on the non-cache
path, in which case the sha256 of the layer's uncompressed bytes equals
`diff_ids[i]` and is recorded in the returned metadata.  Moreover a
digest mismatch on a layer reached on the non-cache path makes the call
fail with `UncompressedLayerInvalid` carrying both digests, whatever
mixture of cached and fresh layers precedes it. -/
theorem c1_layer_verified_unless_cached (image_dir : String) (st : StateM)
    (diffs : List String) (layers : List PulledLayer) :
    (∀ (st' : StateM) (ms : List LayerMetadata),
      pullLayers image_dir st diffs layers = some (st', Except.ok ms) →
      ms.length = layers.length ∧
      ∀ i, i < layers.length →
        ∃ (pl : PulledLayer) (lm : LayerMetadata) (sti : StateM),
          layers[i]? = some pl ∧ ms[i]? = some lm ∧
          pullLayers image_dir st (diffs.take i) (layers.take i) =
            some (sti, Except.ok (ms.take i)) ∧
          (sti.layer pl.sha256_digest = some lm ∨
           (sti.layer pl.sha256_digest = none ∧
            lm.uncompressed_digest = pl.uncompressedDigest ∧
            diffs[i]? = some lm.uncompressed_digest))) ∧
    (∀ (i : Nat) (pl : PulledLayer) (sti : StateM) (msi : List LayerMetadata) (d : String),
      layers[i]? = some pl →
      pullLayers image_dir st (diffs.take i) (layers.take i) =
        some (sti, Except.ok msi) →
      sti.layer pl.sha256_digest = none →
      diffs[i]? = some d →
      pl.uncompressedDigest ≠ d →
      ∃ st'' : StateM,
        pullLayers image_dir st diffs layers =
          some (st'', Except.error (KError.uncompressedLayerInvalid pl.uncompressedDigest d))) :=
  ⟨fun st' ms h => pullLayersGo_success_spec image_dir layers st diffs st' ms h,
   fun i pl sti msi d h1 h2 h3 h4 h5 =>
     pullLayersGo_mismatch_error image_dir layers st diffs i pl sti msi d h1 h2 h3 h4 h5⟩

/-- C1, counterexample: a layer satisfied from the state cache is
returned without any digest verification: the call succeeds although
both the cached metadata's digest and the layer's actual uncompressed
digest differ from `diff_ids[0]`, and no `UncompressedLayerInvalid`
error is raised. -/
theorem c1_cached_layer_not_verified :
    pullLayers "/data/images" c1state ["sha256:expected"] [c1layer] =
      some (c1state, Except.ok [c1meta]) ∧
    c1meta.uncompressed_digest ≠ "sha256:expected" ∧
    c1layer.uncompressedDigest ≠ "sha256:expected" := by decide

/-- C1, witness for the amended theorem at a mixed call: the first
layer is served from the cache (unverified), the second is fresh and
verified; and with a mismatching second diff id the same mixed call
fails with `UncompressedLayerInvalid`. -/
theorem c1_layer_verified_witness :
    (pullLayers "/data/images" c1state c1mixDiffs c1mixLayers =
      some (c1state.add_layer c1meta2, Except.ok [c1meta, c1meta2]) ∧
    ([c1meta, c1meta2].length = c1mixLayers.length ∧
      ∀ i, i < c1mixLayers.length →
        ∃ (pl : PulledLayer) (lm : LayerMetadata) (sti : StateM),
          c1mixLayers[i]? = some pl ∧ [c1meta, c1meta2][i]? = some lm ∧
          pullLayers "/data/images" c1state (c1mixDiffs.take i) (c1mixLayers.take i) =
            some (sti, Except.ok ([c1meta, c1meta2].take i)) ∧
          (sti.layer pl.sha256_digest = some lm ∨
           (sti.layer pl.sha256_digest = none ∧
            lm.uncompressed_digest = pl.uncompressedDigest ∧
            c1mixDiffs[i]? = some lm.uncompressed_digest)))) ∧
    (∃ st'' : StateM,
      pullLayers "/data/images" c1state c1badDiffs c1mixLayers =
        some (st'', Except.error
          (KError.uncompressedLayerInvalid "sha256:d2" "sha256:mismatch"))) :=
  ⟨⟨by decide,
    (c1_layer_verified_unless_cached "/data/images" c1state c1mixDiffs c1mixLayers).1
      (c1state.add_layer c1meta2) [c1meta, c1meta2] (by decide)⟩,
   (c1_layer_verified_unless_cached "/data/images" c1state c1badDiffs c1mixLayers).2
     1 { sha256_digest := "sha256:x2", uncompressedDigest := "sha256:d2", unpackOk := true }
     c1state [c1meta] "sha256:mismatch" (by decide) (by decide) (by decide)
     (by decide) (by decide)⟩

/-- C2: on the spawn-failure return path of `Container::run` the cpu and
memory cgroup deletions never run (the early `return` bypasses them), and
likewise on the wait-failure path; the claim that both `delete`s run on
every exit path is violated at these concrete runs (the kaps cgroups
leak). -/
theorem c2_cgroup_delete_skipped :
    ((containerRun c2spawnFail).1 = Except.ok () ∧
      RunEvent.cpuDelete ∉ (containerRun c2spawnFail).2 ∧
      RunEvent.memDelete ∉ (containerRun c2spawnFail).2) ∧
    ((containerRun c2waitFail).1 = Except.error CError.containerWaitCommand ∧
      RunEvent.cpuDelete ∉ (containerRun c2waitFail).2 ∧
      RunEvent.memDelete ∉ (containerRun c2waitFail).2) := by decide

/-- C3: for a two-layer image the first path of the overlay `lowerdir`
string is the store path of the first layer of the manifest-ordered
list, not of the last (topmost) one — no reversal happens before
joining. -/
theorem c3_lowerdir_keeps_manifest_order :
    lowerdirFirstPath c3image = some "/data/layers/sha256_a".data ∧
    (mountLayerPaths c3image).getLast? = some "/data/layers/sha256_b" ∧
    ("/data/layers/sha256_a" : String) ≠ "/data/layers/sha256_b" := by decide

/-- The lowerdir joining in general: the first path of the `lowerdir`
option is the first (not last) element of the layer-path list the
snapshotter receives, whenever the paths are colon-free. -/
theorem lowerdirFirstPath_eq_head (image : ImageMetadata)
    (hne : mountLayerPaths image ≠ [])
    (hcolon : ∀ p ∈ mountLayerPaths image, ':' ∉ p.data) :
    lowerdirFirstPath image = ((mountLayerPaths image).map String.data).head? := by
  unfold lowerdirFirstPath overlayLowerdir
  rw [splitChar_joinChar ':' ((mountLayerPaths image).map String.data)
    (by simpa using hne)
    (by
      intro x hx
      obtain ⟨p, hp, rfl⟩ := List.mem_map.mp hx
      exact hcolon p hp)]

/-- C4: `State::save` opens the state file without truncation, so saving
a state whose serialization is shorter than the previous contents leaves
trailing bytes of the old serialization in the file; the following load
then fails to parse and falls back to `State::default()`, so
save-then-load does not return the saved state.  When the old contents
are not longer, the round-trip does hold, which isolates the missing
`truncate(true)` as the defect. -/
theorem c4_save_without_truncate :
    stateLoad (stateSave (encState c4old) c4new) = stateDefault ∧
    stateLoad (stateSave (encState c4old) c4new) ≠ c4new ∧
    stateLoad (stateSave (encState stateDefault) c4new) = c4new := by decide

/-- C5, counterexample: a pull whose second layer fails digest
verification returns `UncompressedLayerInvalid`, yet the first layer's
metadata has already been inserted into the in-memory state — the state
is not left exactly as it was (the persisted file is, though). -/
theorem c5_partial_layer_insertion :
    managerPull "/data/images" stateDefault stateDefault c5reg "docker.io/library/img"
        false none =
      some { result := Except.error (KError.uncompressedLayerInvalid "sha256:db" "sha256:wrong"),
             state := { images := [], layers := [("sha256:g", c5meta)], index := 0 },
             file := stateDefault, layersFetched := true } ∧
    ({ images := [], layers := [("sha256:g", c5meta)], index := 0 } : StateM) ≠
      stateDefault := by decide

/-- C5, amended: a pull that fails with an integrity error
(`InvalidPulledLayers` or `UncompressedLayerInvalid`) never inserts an
image entry and never writes the persisted state file; layer entries
verified before the failure may however remain in the in-memory state. -/
theorem c5_integrity_failure_preserves_file (images_dir : String) (st file : StateM)
    (reg : Registry) (image : String) (remove_existing : Bool) (id : Option String)
    (o : PullOutcome)
    (h : managerPull images_dir st file reg image remove_existing id = some o)
    (herr : (∃ m, o.result = Except.error (KError.invalidPulledLayers m)) ∨
            (∃ d1 d2, o.result = Except.error (KError.uncompressedLayerInvalid d1 d2))) :
    o.file = file ∧ o.state.images = st.images := by
  simp only [managerPull] at h
  split at h
  · rw [Option.some.injEq] at h
    subst h
    exact ⟨rfl, rfl⟩
  · split at h
    · rw [Option.some.injEq] at h
      subst h
      exact ⟨rfl, rfl⟩
    · split at h
      · rw [Option.some.injEq] at h
        subst h
        exact ⟨rfl, rfl⟩
      · split at h
        · rw [Option.some.injEq] at h
          subst h
          exact ⟨rfl, rfl⟩
        · split at h
          · rw [Option.some.injEq] at h
            subst h
            exact ⟨rfl, rfl⟩
          · cases hpl : pullLayers images_dir st reg.config.diff_ids reg.dataLayers with
            | none =>
              rw [hpl] at h
              exact Option.noConfusion h
            | some p =>
              obtain ⟨st', r⟩ := p
              rw [hpl] at h
              cases r with
              | error e =>
                rw [Option.some.injEq] at h
                subst h
                exact ⟨rfl, pullLayersGo_images images_dir reg.dataLayers st
                  reg.config.diff_ids st' (Except.error e) hpl⟩
              | ok layers =>
                rw [Option.some.injEq] at h
                subst h
                rcases herr with ⟨m, hm⟩ | ⟨d1, d2, hm⟩
                · exact absurd hm (fun hc => Except.noConfusion hc)
                · exact absurd hm (fun hc => Except.noConfusion hc)

/-- C5, witness: a pull with a layer-count mismatch leaves the persisted
file and the image map untouched. -/
theorem c5_integrity_preserves_witness :
    managerPull "/data/images" c9state c9state c5regCount "docker.io/library/img" true none =
      some c5out ∧
    (c5out.file = c9state ∧ c5out.state.images = c9state.images) :=
  ⟨by decide,
    c5_integrity_failure_preserves_file "/data/images" c9state c9state c5regCount
      "docker.io/library/img" true none c5out (by decide)
      (Or.inl ⟨"Pulled number of layers is not the same defined in image configuration.", rfl⟩)⟩

/-- C6, counterexample: when the image config's labels contain
`org.opencontainers.image.created`, `HashMap::extend` overrides the
entry built from the image's `created`, so the annotations map carries
the label's value, not `created`. -/
theorem c6_labels_override_created :
    c6cfg.created = some "2022-01-01T00:00:00Z" ∧
    hmLookup (buildAnnots c6cfg) createdKey = some "from-label" ∧
    hmLookup (buildAnnots c6cfg) createdKey ≠ some "2022-01-01T00:00:00Z" := by decide

/-- C6, amended: when `created` is present, the created annotation holds
the image's `created` value exactly when the labels do not bind the key
themselves; a label binding of the key overrides it (labels win). -/
theorem c6_created_overridden_by_labels (cfg : ImageConfiguration) (c : String)
    (h : cfg.created = some c) :
    hmLookup (buildAnnots cfg) createdKey =
      some ((hmLookup (hmExtend [] ((cfg.config.bind Config.labels).getD []))
        createdKey).getD c) := by
  cases hcfg : cfg.config with
  | none =>
    simp only [buildAnnots, h, hcfg, Option.bind, Option.getD]
    rw [hmLookup_hmInsert]
    simp [hmExtend, hmLookup]
  | some conf =>
    cases hlab : conf.labels with
    | none =>
      simp only [buildAnnots, h, hcfg, hlab, Option.bind, Option.getD]
      rw [hmLookup_hmInsert]
      simp [hmExtend, hmLookup]
    | some lbs =>
      simp only [buildAnnots, h, hcfg, hlab, Option.bind, Option.getD]
      rw [hmLookup_hmExtend lbs (hmInsert [] createdKey c) createdKey]
      cases hl : hmLookup (hmExtend [] lbs) createdKey with
      | some v => simp
      | none =>
        rw [hmLookup_hmInsert]
        simp

/-- C6, witness: with collision-free labels the created annotation does
carry the image's `created` value. -/
theorem c6_created_witness :
    c6cfgW.created = some "2022-01-01T00:00:00Z" ∧
    hmLookup (buildAnnots c6cfgW) createdKey =
      some ((hmLookup (hmExtend [] ((c6cfgW.config.bind Config.labels).getD []))
        createdKey).getD "2022-01-01T00:00:00Z") :=
  ⟨rfl, c6_created_overridden_by_labels c6cfgW "2022-01-01T00:00:00Z" rfl⟩

/-- C7: for an image configuration whose config section carries
entrypoint `E`, cmd `C`, env `V` and working dir `D`, the generated
spec's process has `args = E ++ C` (left unset when `E ++ C` is empty),
`env = V` and `cwd = D`. -/
theorem c7_process_from_config (cfg : ImageConfiguration) (conf : Config)
    (E C V : List String) (D : String)
    (hconf : cfg.config = some conf) (hE : conf.entrypoint = some E)
    (hC : conf.cmd = some C) (hV : conf.env = some V) (hD : conf.working_dir = some D) :
    (newRuntimeConfig (some cfg)).process =
      some { args := if E ++ C = [] then none else some (E ++ C),
             env := some V, cwd := D } := by
  simp only [newRuntimeConfig, buildProcess, hconf, hE, hC, hV, hD, Option.getD,
    processDefault]
  by_cases h : E ++ C = []
  · simp [h]
  · have hie : (E ++ C).isEmpty = false := by
      cases hec : E ++ C with
      | nil => exact absurd hec h
      | cons a t => rfl
    simp [h, hie]

/-- C7, witness: the spec's S4 fixture. -/
theorem c7_process_witness :
    c7cfg.config =
      some
        { entrypoint := some ["bash"], cmd := some ["-c", "ls"],
          env := some ["PATH=/usr/local/sbin"], working_dir := some "/home",
          labels := none } ∧
    (newRuntimeConfig (some c7cfg)).process =
      some
        { args :=
            if ["bash"] ++ ["-c", "ls"] = ([] : List String) then none
            else some (["bash"] ++ ["-c", "ls"]),
          env := some ["PATH=/usr/local/sbin"], cwd := "/home" } :=
  ⟨rfl, c7_process_from_config c7cfg _ ["bash"] ["-c", "ls"] ["PATH=/usr/local/sbin"] "/home"
    rfl rfl rfl rfl rfl⟩

/-- C8, counterexample: `snapshot_index` post-increments through a
wrapping `AtomicUsize` `fetch_add`, so from a state whose index is
`usize::MAX - 1` the two successive calls return `usize::MAX` and then
`0` — not strictly increasing. -/
theorem c8_wraps_at_usize_max :
    snapshotSeq c8state 2 = [USIZE - 1, 0] ∧
    ¬ List.Pairwise (fun a b => a < b) (snapshotSeq c8state 2) := by decide

/-- C8, amended: as long as the initial index plus the number of calls
stays below `2 ^ 64`, successive `snapshot_index` calls return
`index + 1, index + 2, …` — strictly increasing, hence pairwise
distinct. -/
theorem c8_snapshot_indices_increase (s : StateM) (n : Nat) (h : s.index + n < USIZE) :
    snapshotSeq s n = List.range' (s.index + 1) n ∧
    List.Pairwise (fun a b => a < b) (snapshotSeq s n) := by
  have key : ∀ (n : Nat) (s : StateM), s.index + n < USIZE →
      snapshotSeq s n = List.range' (s.index + 1) n := by
    intro n
    induction n with
    | zero => intro s _; rfl
    | succ n ih =>
      intro s hs
      have h1 : s.index + 1 < USIZE := by omega
      have hmod : (s.index + 1) % USIZE = s.index + 1 := Nat.mod_eq_of_lt h1
      have htail := ih { s with index := s.index + 1 }
        (show s.index + 1 + n < USIZE by omega)
      simp only [snapshotSeq, StateM.snapshot_index, hmod, List.range'_succ]
      rw [htail]
  refine ⟨key n s h, ?_⟩
  rw [key n s h]
  exact List.pairwise_lt_range' (s.index + 1) n

/-- C8, witness: three calls from a fresh state return `[1, 2, 3]`. -/
theorem c8_snapshot_increase_witness :
    stateDefault.index + 3 < USIZE ∧
    (snapshotSeq stateDefault 3 = List.range' (stateDefault.index + 1) 3 ∧
      List.Pairwise (fun a b => a < b) (snapshotSeq stateDefault 3)) :=
  ⟨by decide, c8_snapshot_indices_increase stateDefault 3 (by decide)⟩

/-- C9: when the derived or supplied image id is already in the state
and `remove_existing` is false, `pull` returns that id, leaves both the
in-memory and the persisted state untouched, and performs no registry
layer fetch (`client.pull` never runs). -/
theorem c9_pull_cache_hit (images_dir : String) (st file : StateM) (reg : Registry)
    (image : String) (id : Option String)
    (href : reg.refOk = true) (hman : reg.manifestOk = true)
    (hhit : st.has_image (id.getD (to_uid reg.manifestDigest)) = true) :
    managerPull images_dir st file reg image false id =
      some { result := Except.ok (id.getD (to_uid reg.manifestDigest)),
             state := st, file := file, layersFetched := false } := by
  cases id with
  | none =>
    simp only [Option.getD] at hhit ⊢
    simp [managerPull, href, hman, hhit]
  | some i =>
    simp only [Option.getD] at hhit ⊢
    simp [managerPull, href, hman, hhit]

/-- C9, witness: a pull of an already-known image id. -/
theorem c9_pull_cache_hit_witness :
    c9reg.refOk = true ∧ c9reg.manifestOk = true ∧
    c9state.has_image ((some "known").getD (to_uid c9reg.manifestDigest)) = true ∧
    managerPull "/data/images" c9state c9state c9reg "docker.io/library/img" false
        (some "known") =
      some { result := Except.ok ((some "known").getD (to_uid c9reg.manifestDigest)),
             state := c9state, file := c9state, layersFetched := false } :=
  ⟨rfl, rfl, by decide,
    c9_pull_cache_hit "/data/images" c9state c9state c9reg "docker.io/library/img"
      (some "known") rfl rfl (by decide)⟩

/-- C10: `Environment::from` panics (indexing `key_value[1]` out of
bounds) on any env entry without `=`, and for an entry with two or more
`=` it keeps only the segment between the first and the second `=` as
the value, silently dropping the rest; the panic propagates out of the
whole conversion. -/
theorem c10_environment_split_behavior :
    (∀ v : List Char, '=' ∉ v → envVarParse v = none) ∧
    (∀ k m rest : List Char, '=' ∉ k → '=' ∉ m →
      envVarParse (k ++ '=' :: (m ++ '=' :: rest)) = some (k, m)) ∧
    environmentFrom (some { processDefault with env := some ["PATH"] }) = none := by
  refine ⟨?_, ?_, ?_⟩
  · intro v hv
    simp only [envVarParse, splitChar_of_not_mem '=' v hv]
  · intro k m rest hk hm
    simp only [envVarParse, splitChar_append '=' k _ hk, splitChar_append '=' m rest hm]
  · decide

/-- C10, witness: the entry `PATH` (no `=`) panics; the entry `K=v=x`
parses to key `K`, value `v`. -/
theorem c10_environment_split_witness :
    ('=' ∉ ['P', 'A', 'T', 'H'] ∧ envVarParse ['P', 'A', 'T', 'H'] = none) ∧
    ('=' ∉ ['K'] ∧ '=' ∉ ['v'] ∧
      envVarParse (['K'] ++ '=' :: (['v'] ++ '=' :: ['x'])) = some (['K'], ['v'])) :=
  ⟨⟨by decide, c10_environment_split_behavior.1 ['P', 'A', 'T', 'H'] (by decide)⟩,
   ⟨by decide, by decide,
    c10_environment_split_behavior.2.1 ['K'] ['v'] ['x'] (by decide) (by decide)⟩⟩

end Kaps
